import Mathlib

/-!
# KViewer client core — shallow embedding and verification

This file embeds the client-side state and operations of the KViewer
web viewer (`src/static/js/main.js`, `src/static/js/three/scene.js`,
`src/static/js/three/object.js`) as pure Lean definitions and proves
properties of them.

Conventions of the embedding:
* JS numbers are modelled as `ℚ` (exact rationals) except where the code
  applies transcendental functions (`Math.sin`, `Math.cos`), where `ℝ` is
  used; colors stored as hex integers are `Nat`.
* DOM text content and CSS style values are fields of explicit state
  records; assigning `element.textContent = v` becomes a record update.
* Dispatched `CustomEvent`s are modelled as an append-only event list.
* Each definition mirrors one function of the source, line by line; the
  doc comments name the source function.
-/

namespace KViewer

/-! ## main.js — status display (`updateStatus`, main.js lines 164-212) -/

/-- The `#status-indicator` element: its class attribute and text. -/
structure StatusDisplay where
  className : String
  text : String
deriving DecidableEq, Repr

/-- The `switch (status)` of `updateStatus` (main.js 172-211): maps a status
string to the displayed label, unknown statuses pass through verbatim. -/
def statusLabel (status : String) : String :=
  if status = "idle" then "Idle"
  else if status = "starting" then "Starting..."
  else if status = "initializing" then "Initializing..."
  else if status = "logging_in" then "Logging in..."
  else if status = "logged_in" then "Logged in"
  else if status = "in_world" then "In World"
  else if status = "logging_out" then "Logging out..."
  else if status = "completed" then "Completed"
  else if status = "error" then "Error"
  else if status = "running_simulation_1" then "Running (1/3)"
  else if status = "running_simulation_2" then "Running (2/3)"
  else if status = "running_simulation_3" then "Running (3/3)"
  else status

/-- `updateStatus` (main.js 164-212): clears the class list, adds
`status-<status>`, and sets the label text. -/
def updateStatus (_d : StatusDisplay) (status : String) : StatusDisplay :=
  { className := "status-" ++ status, text := statusLabel status }

/-- Feeding a status sequence through `updateStatus` and recording the
displayed label after each update. -/
def statusTrace (d : StatusDisplay) (sts : List String) : List String :=
  (sts.foldl (fun (acc : List String × StatusDisplay) st =>
      let d2 := updateStatus acc.2 st
      (acc.1 ++ [d2.text], d2)) ([], d)).1

/-- C5: Feeding the status values idle, starting, logging_in, logged_in,
in_world, logging_out, completed in that order to the status-update handler
drives the displayed status label through exactly the sequence
Idle, Starting..., Logging in..., Logged in, In World, Logging out...,
Completed. -/
theorem status_sequence_drives_labels (d : StatusDisplay) :
    statusTrace d
      ["idle", "starting", "logging_in", "logged_in", "in_world",
       "logging_out", "completed"]
      = ["Idle", "Starting...", "Logging in...", "Logged in", "In World",
         "Logging out...", "Completed"] := rfl

/-! ## main.js — region/position/avatar/minimap display state -/

/-- The DOM state mutated by the main.js handlers: login/user/region text,
the avatar element's CSS position (percentages), the minimap marker's CSS
position, and the system log (message, level). -/
structure DisplayState where
  loginStatusText : String
  userNameText : String
  userIdText : String
  regionNameText : String
  regionPositionText : String
  avatarLeftPct : ℚ
  avatarBottomPct : ℚ
  markerLeftPct : ℚ
  markerTopPct : ℚ
  logEntries : List (String × String)
deriving DecidableEq, Repr

/-- `addLogEntry` (main.js 241-250): appends one entry to `#system-log`. -/
def addLogEntry (s : DisplayState) (message level : String) : DisplayState :=
  { s with logEntries := s.logEntries ++ [(message, level)] }

/-- `updateRegionInfo` (main.js 214-221): sets the region name text
(`region || 'Not connected'`, JS falsiness of the empty string) and the
position text; a missing or non-3-component position falls to the default
text. -/
def updateRegionInfo (s : DisplayState) (region : String)
    (position : Option (List ℚ)) : DisplayState :=
  let rn := if region = "" then "Not connected" else region
  let pt :=
    match position with
    | some [a, b, c] => s!"Position: {a}, {b}, {c}"
    | _ => "Position: 0, 0, 0"
  { s with regionNameText := rn, regionPositionText := pt }

/-- The `socket.on('teleport')` handler (main.js 42-59): updates the region
display, moves the on-screen avatar and the minimap marker from the wire
position `[p0, p1, p2]`, and appends one log line. -/
def applyTeleport (s : DisplayState) (region : String)
    (p0 p1 p2 : ℚ) : DisplayState :=
  let s1 := updateRegionInfo s region (some [p0, p1, p2])
  let x := p0 / 256 * 100
  let y := 100 - p1 / 256 * 100
  let s2 := { s1 with
    avatarLeftPct := x,
    avatarBottomPct := 40 + p2 / 100 * 10,
    markerLeftPct := x,
    markerTopPct := y }
  addLogEntry s2 s!"Teleported to {region} at position {p0}, {p1}, {p2}" "info"

/-- C6: Applying the same teleport event (identical region name and
identical 3-component position) twice leaves the displayed region name,
position text, avatar screen position, and minimap marker position after
the second application identical to their values after the first
application; only the appended log line repeats. -/
theorem teleport_idempotent_on_display (s : DisplayState) (region : String)
    (p0 p1 p2 : ℚ) :
    (applyTeleport (applyTeleport s region p0 p1 p2) region p0 p1 p2).regionNameText
        = (applyTeleport s region p0 p1 p2).regionNameText ∧
    (applyTeleport (applyTeleport s region p0 p1 p2) region p0 p1 p2).regionPositionText
        = (applyTeleport s region p0 p1 p2).regionPositionText ∧
    (applyTeleport (applyTeleport s region p0 p1 p2) region p0 p1 p2).avatarLeftPct
        = (applyTeleport s region p0 p1 p2).avatarLeftPct ∧
    (applyTeleport (applyTeleport s region p0 p1 p2) region p0 p1 p2).avatarBottomPct
        = (applyTeleport s region p0 p1 p2).avatarBottomPct ∧
    (applyTeleport (applyTeleport s region p0 p1 p2) region p0 p1 p2).markerLeftPct
        = (applyTeleport s region p0 p1 p2).markerLeftPct ∧
    (applyTeleport (applyTeleport s region p0 p1 p2) region p0 p1 p2).markerTopPct
        = (applyTeleport s region p0 p1 p2).markerTopPct :=
  ⟨rfl, rfl, rfl, rfl, rfl, rfl⟩

/-! ## main.js — snapshot polling (`pollEvents`, main.js 93-140) -/

/-- The optional user payload of a `/api/state` snapshot. -/
structure SnapshotUser where
  name : String
  id : String
deriving DecidableEq, Repr

/-- A `/api/state` snapshot: current status, logged-in flag, optional user,
optional region name, optional position. -/
structure Snapshot where
  status : String
  logged_in : Bool
  user : Option SnapshotUser
  position : Option (List ℚ)
  current_region : Option String
deriving DecidableEq, Repr

/-- The snapshot branch of the `pollEvents` interval callback
(main.js 108-123): updates the login/user display and, when the snapshot
carries a (truthy, hence non-empty) region name, the region display. -/
def processSnapshotDisplay (s : DisplayState) (d : Snapshot) : DisplayState :=
  let s1 :=
    match d.logged_in, d.user with
    | true, some u =>
        let un := u.name
        let uid := u.id
        { s with loginStatusText := "Logged in",
                 userNameText := s!"Name: {un}",
                 userIdText := s!"ID: {uid}" }
    | _, _ =>
        { s with
            loginStatusText :=
              if d.status = "completed" then "Logged out" else "Not logged in",
            userNameText := "", userIdText := "" }
  match d.current_region with
  | some r => if r = "" then s1 else updateRegionInfo s1 r d.position
  | none => s1

/-- Whether an optional position payload is a 3-component position. -/
def carriesPosition : Option (List ℚ) → Bool
  | some p => p.length == 3
  | none => false

/-- A concrete prior display state whose position text shows 10, 20, 30. -/
def c9Display : DisplayState :=
  { loginStatusText := "Logged in", userNameText := "Name: Test",
    userIdText := "ID: 42", regionNameText := "Old Region",
    regionPositionText := "Position: 10, 20, 30",
    avatarLeftPct := 50, avatarBottomPct := 40,
    markerLeftPct := 50, markerTopPct := 50, logEntries := [] }

/-- A snapshot carrying a region name but no position. -/
def c9Snapshot : Snapshot :=
  { status := "in_world", logged_in := true,
    user := some { name := "Test", id := "42" },
    position := none, current_region := some "New Region" }

/-- C9 counterexample: at a state displaying "Position: 10, 20, 30", a
snapshot carrying a region name but no position does NOT leave the
displayed position unchanged — the handler resets it to
"Position: 0, 0, 0". -/
theorem snapshot_without_position_changes_display :
    (processSnapshotDisplay c9Display c9Snapshot).regionPositionText
        = "Position: 0, 0, 0" ∧
    c9Display.regionPositionText = "Position: 10, 20, 30" ∧
    ("Position: 0, 0, 0" : String) ≠ "Position: 10, 20, 30" := by
  refine ⟨rfl, rfl, by decide⟩

/-- C9 amended: when a polled snapshot carries a (non-empty) region name
but no 3-component position, the handler does not fail; it sets the region
name and resets the displayed position text to the default
"Position: 0, 0, 0" instead of leaving the previous value unchanged. -/
theorem snapshot_without_position_resets_default
    (s : DisplayState) (d : Snapshot) (r : String)
    (hr : d.current_region = some r) (hne : r ≠ "")
    (hp : carriesPosition d.position = false) :
    (processSnapshotDisplay s d).regionNameText = r ∧
    (processSnapshotDisplay s d).regionPositionText = "Position: 0, 0, 0" := by
  have hpt :
      (match d.position with
        | some [a, b, c] => s!"Position: {a}, {b}, {c}"
        | _ => "Position: 0, 0, 0") = "Position: 0, 0, 0" := by
    match h : d.position with
    | none => rfl
    | some [] => rfl
    | some [a] => rfl
    | some [a, b] => rfl
    | some [a, b, c] => rw [h] at hp; simp [carriesPosition] at hp
    | some (a :: b :: c :: e :: l) => rfl
  unfold processSnapshotDisplay
  rw [hr]
  simp only [if_neg hne]
  unfold updateRegionInfo
  rw [hpt]
  cases hu : d.user <;> cases hl : d.logged_in <;>
    exact ⟨by simp [if_neg hne], rfl⟩

/-- C9 witness: the amended theorem applied at the concrete snapshot. -/
theorem snapshot_without_position_resets_default_witness :
    (processSnapshotDisplay c9Display c9Snapshot).regionNameText = "New Region" ∧
    (processSnapshotDisplay c9Display c9Snapshot).regionPositionText
        = "Position: 0, 0, 0" :=
  snapshot_without_position_resets_default c9Display c9Snapshot "New Region"
    rfl (by decide) rfl

/-! ## main.js — event queue and the polling loop -/

/-- A `/api/events` discriminated event (main.js `processEvent`, 142-162).
Event types outside the switch are represented by `other` (no case in the
source switch, hence a no-op). -/
inductive PullEvent where
  | log (message : String) (level : String)
  | chat
  | teleport
  | login
  | logout
  | other (t : String)
deriving DecidableEq, Repr

/-- `processEvent` (main.js 142-162): log entries are appended, chat and
teleport are no-ops (handled on the push channel), login/logout update the
login status text and append a log line. -/
def processEvent (s : DisplayState) (e : PullEvent) : DisplayState :=
  match e with
  | .log m lvl => addLogEntry s m lvl.toLower
  | .chat => s
  | .teleport => s
  | .login => addLogEntry { s with loginStatusText := "Logged in" } "Login successful" "info"
  | .logout => addLogEntry { s with loginStatusText := "Logged out" } "Logged out" "info"
  | .other _ => s

/-- The state owned by `pollEvents` (main.js 93-140): whether the interval
timer is still installed, the start button, and the display. -/
structure PollState where
  active : Bool
  startButtonDisabled : Bool
  startButtonText : String
  display : DisplayState
deriving DecidableEq, Repr

/-- The terminal-status test of the interval callback (main.js 100):
`data.status === 'completed' || data.status === 'error'`. -/
def terminalStatus (st : String) : Bool :=
  st == "completed" || st == "error"

/-- One interval tick of `pollEvents` (main.js 95-139): when the interval
is still installed it issues two fetches (`/api/state` and `/api/events`,
counted in the second component), clears the interval on a terminal
snapshot status, updates the display from the snapshot, and processes the
fetched events in order. When the interval has been cleared, nothing runs
and no fetch is issued. -/
def pollTick (s : PollState) (d : Snapshot) (evs : List PullEvent) :
    PollState × Nat :=
  if s.active then
    let s1 :=
      if terminalStatus d.status then
        { s with active := false, startButtonDisabled := false,
                 startButtonText := "Restart Simulation" }
      else s
    let s2 := { s1 with display := processSnapshotDisplay s1.display d }
    let s3 := { s2 with display := evs.foldl processEvent s2.display }
    (s3, 2)
  else (s, 0)

/-- Running the polling loop over a list of tick inputs, totalling the
number of fetches issued. -/
def pollRun (s : PollState) : List (Snapshot × List PullEvent) → PollState × Nat
  | [] => (s, 0)
  | t :: rest =>
    let r := pollTick s t.1 t.2
    let r2 := pollRun r.1 rest
    (r2.1, r.2 + r2.2)

/-- Once the interval is cleared, no tick issues any fetch. -/
theorem pollRun_inactive (s : PollState) (h : s.active = false) :
    ∀ ticks : List (Snapshot × List PullEvent), (pollRun s ticks).2 = 0 := by
  intro ticks
  induction ticks with
  | nil => rfl
  | cons t rest ih =>
    simp only [pollRun, pollTick, h, Bool.false_eq_true, if_false]
    simpa using ih

/-- C7: whenever a polled snapshot reports status completed or error, the
periodic polling loop is stopped and no further snapshot or event fetch is
issued from it; on any non-terminal status the loop keeps running. -/
theorem polling_stops_exactly_on_terminal (s : PollState) (d : Snapshot)
    (evs : List PullEvent) (rest : List (Snapshot × List PullEvent))
    (h : s.active = true) :
    (terminalStatus d.status = true →
        (pollTick s d evs).1.active = false ∧
        (pollRun (pollTick s d evs).1 rest).2 = 0) ∧
    (terminalStatus d.status = false →
        (pollTick s d evs).1.active = true) := by
  constructor
  · intro ht
    have hact : (pollTick s d evs).1.active = false := by
      simp [pollTick, h, ht]
    exact ⟨hact, pollRun_inactive _ hact rest⟩
  · intro ht
    simp [pollTick, h, ht]

/-- A concrete active polling state. -/
def c7State : PollState :=
  { active := true, startButtonDisabled := true,
    startButtonText := "Simulation Running...", display := c9Display }

/-- A terminal snapshot. -/
def c7Snapshot : Snapshot :=
  { status := "completed", logged_in := false, user := none,
    position := none, current_region := none }

/-- A non-terminal snapshot. -/
def c7Snapshot2 : Snapshot :=
  { status := "in_world", logged_in := true,
    user := some { name := "Test", id := "42" },
    position := some [1, 2, 3], current_region := some "Region" }

/-- C7 witness: after the tick that observes status `completed`, the loop
is stopped and two further tick opportunities issue zero fetches. -/
theorem polling_stops_witness :
    (pollTick c7State c7Snapshot []).1.active = false ∧
    (pollRun (pollTick c7State c7Snapshot []).1
        [(c7Snapshot2, []), (c7Snapshot2, [PullEvent.login])]).2 = 0 :=
  (polling_stops_exactly_on_terminal c7State c7Snapshot []
      [(c7Snapshot2, []), (c7Snapshot2, [PullEvent.login])] rfl).1 rfl

/-! ## three/scene.js + three/object.js — scene graph and object registry

`SceneManager` (scene.js) owns the pickable list `this.objects`, the single
`selectedObject` reference and the selection highlight; `ObjectManager`
(object.js) owns the record list `this.objects` and `nextObjectId`.
JS object references are represented by the node's `userData.id`; in every
reachable state the ids of the pickable list are pairwise distinct (proved
below), so identity-based operations (`indexOf`) coincide with id-based
ones. -/

/-- A 3-component vector (position / rotation / scale). -/
structure Vec3 where
  x : ℚ
  y : ℚ
  z : ℚ
deriving DecidableEq, Repr

/-- The geometry table of `ObjectManager.createObject` (object.js 69-87). -/
inductive ObjGeometry where
  | box (w h d : ℚ)
  | sphere (radius : ℚ) (widthSegments heightSegments : Nat)
  | cylinder (radiusTop radiusBottom height : ℚ) (radialSegments : Nat)
  | cone (radius height : ℚ) (radialSegments : Nat)
  | torus (radius tube : ℚ) (radialSegments tubularSegments : Nat)
deriving DecidableEq, Repr

/-- A pickable scene node (a `THREE.Mesh` created by `createObject`), with
its material state and the `currentHex` expando slot written by
`SceneManager.selectObject` before highlighting. -/
structure SceneNode where
  nodeId : Nat
  geometry : ObjGeometry
  color : String
  transparent : Bool
  opacity : ℚ
  roughness : ℚ
  metalness : ℚ
  emissive : Nat
  currentHex : Nat
  position : Vec3
  rotation : Vec3
  scale : Vec3
  castShadow : Bool
  receiveShadow : Bool
  isPhysical : Bool
  isPhantom : Bool
  isTemporary : Bool
deriving DecidableEq, Repr

/-- An `ObjectManager` record (the `objectData` literals of object.js). -/
structure ObjectData where
  id : Nat
  type : String
  position : Vec3
  rotation : Vec3
  scale : Vec3
  color : String
  transparency : ℚ
  isPhysical : Bool
  isPhantom : Bool
  isTemporary : Bool
deriving DecidableEq, Repr

/-- The `CustomEvent`s dispatched by `SceneManager.selectObject` /
`deselectObject` (scene.js 119-120, 133-134). -/
inductive DomEvent where
  | objectSelected (objectId : Nat)
  | objectDeselected
deriving DecidableEq, Repr

/-- `SceneManager` state: the pickable list `this.objects` and the single
`this.selectedObject` reference (by node id). -/
structure SceneState where
  objects : List SceneNode
  selectedObject : Option Nat
deriving DecidableEq, Repr

/-- The combined client world: the scene graph, the `ObjectManager` record
list and id counter, the edit/delete button disabled flags, the dispatched
events and the system log. -/
structure WorldState where
  scene : SceneState
  objects : List ObjectData
  nextObjectId : Nat
  editDisabled : Bool
  deleteDisabled : Bool
  events : List DomEvent
  log : List (String × String)
deriving DecidableEq, Repr

/-- The build-panel form values read by `createObjectFromUI` /
`editSelectedObject` (object.js 34-40, 150-155). -/
structure UIParams where
  primType : String
  size : ℚ
  color : String
  transparency : ℚ
  isPhysical : Bool
  isPhantom : Bool
  isTemporary : Bool
deriving DecidableEq, Repr

/-- An inventory item as consumed by `loadObjectFromInventory`. -/
structure InventoryItem where
  name : String
  type : String
deriving DecidableEq, Repr

/-- The geometry switch of `createObject` (object.js 69-87); unknown types
fall back to the unit box. -/
def geometryFor (t : String) : ObjGeometry :=
  if t = "box" then .box 1 1 1
  else if t = "sphere" then .sphere 0.5 32 32
  else if t = "cylinder" then .cylinder 0.5 0.5 1 32
  else if t = "prism" then .cone 0.5 1 4
  else if t = "torus" then .torus 0.5 0.2 16 32
  else .box 1 1 1

/-- The mesh built by `createObject` (object.js 65-131) from a record:
geometry by type, standard material (emissive defaults to 0x000000),
transform copied from the record, `userData` flags. The `currentHex`
expando is absent until first selection; it is modelled as 0 and is only
read after `selectObject` has written it. -/
def buildNode (d : ObjectData) : SceneNode :=
  { nodeId := d.id
    geometry := geometryFor d.type
    color := d.color
    transparent := decide (0 < d.transparency)
    opacity := 1 - d.transparency
    roughness := 0.7
    metalness := 0.3
    emissive := 0
    currentHex := 0
    position := d.position
    rotation := d.rotation
    scale := d.scale
    castShadow := true
    receiveShadow := true
    isPhysical := d.isPhysical
    isPhantom := d.isPhantom
    isTemporary := d.isTemporary }

/-- `SceneManager.addObject` (scene.js 138-141): adds the node to the scene
and pushes it onto the pickable list. -/
def addObject (s : WorldState) (node : SceneNode) : WorldState :=
  { s with scene := { s.scene with objects := s.scene.objects ++ [node] } }

/-- `ObjectManager.createObject` (object.js 65-136): builds the mesh and
registers it with the scene manager; returns the mesh. -/
def createObject (s : WorldState) (d : ObjectData) : WorldState × SceneNode :=
  let node := buildNode d
  (addObject s node, node)

/-- `ObjectManager.createObjectFromUI` (object.js 32-63): reads the form,
allocates the next id (`this.nextObjectId++`), creates the mesh, stores the
record and logs. `createObject` always returns a mesh, so the `if (object)`
guard always passes. -/
def createObjectFromUI (s : WorldState) (ui : UIParams) : WorldState :=
  let objectData : ObjectData :=
    { id := s.nextObjectId
      type := ui.primType
      position := ⟨0, ui.size / 2, 0⟩
      rotation := ⟨0, 0, 0⟩
      scale := ⟨ui.size, ui.size, ui.size⟩
      color := ui.color
      transparency := ui.transparency
      isPhysical := ui.isPhysical
      isPhantom := ui.isPhantom
      isTemporary := ui.isTemporary }
  let s1 := { s with nextObjectId := s.nextObjectId + 1 }
  let s2 := (createObject s1 objectData).1
  let s3 := { s2 with objects := s2.objects ++ [objectData] }
  let ty := ui.primType
  let oid := objectData.id
  { s3 with log := s3.log ++ [(s!"Created {ty} object with ID: {oid}", "info")] }

/-- `ObjectManager.getTypeFromItem` (object.js 228-240). -/
def getTypeFromItem (item : InventoryItem) : String :=
  if item.type = "mesh" then "mesh"
  else if item.type = "texture" then "box"
  else if item.type = "object" then "box"
  else "box"

/-- `ObjectManager.loadObjectFromInventory` (object.js 204-226). The random
placeholder color (`Math.random()`) is passed in as an oracle argument. -/
def loadObjectFromInventory (s : WorldState) (item : InventoryItem)
    (randomColor : String) : WorldState :=
  let objectData : ObjectData :=
    { id := s.nextObjectId
      type := getTypeFromItem item
      position := ⟨0, 1, 0⟩
      rotation := ⟨0, 0, 0⟩
      scale := ⟨1, 1, 1⟩
      color := randomColor
      transparency := 0
      isPhysical := false
      isPhantom := false
      isTemporary := false }
  let s1 := { s with nextObjectId := s.nextObjectId + 1 }
  let s2 := (createObject s1 objectData).1
  let s3 := { s2 with objects := s2.objects ++ [objectData] }
  let nm := item.name
  { s3 with log := s3.log ++ [(s!"Created object from inventory item: {nm}", "info")] }

/-- The node mutation of `editSelectedObject` (object.js 158-166), applied
to the node the selected reference points at: update scale, material color,
transparency and the `userData` flags. -/
def editNodeUpdate (ui : UIParams) (objectId : Nat) (n : SceneNode) : SceneNode :=
  if n.nodeId == objectId then
    { n with
        scale := ⟨ui.size, ui.size, ui.size⟩
        color := ui.color
        transparent := decide (0 < ui.transparency)
        opacity := 1 - ui.transparency
        isPhysical := ui.isPhysical
        isPhantom := ui.isPhantom
        isTemporary := ui.isTemporary }
  else n

/-- `ObjectManager.editSelectedObject` (object.js 138-178): no-op without a
selection; returns before touching anything if the record is missing
(`findIndex === -1`); otherwise updates the live node (scale, color,
transparency, flags) and the record together. -/
def editSelectedObject (s : WorldState) (ui : UIParams) : WorldState :=
  match s.scene.selectedObject with
  | none => s
  | some objectId =>
    match s.objects.findIdx? (fun o => o.id == objectId) with
    | none => s
    | some idx =>
      match s.objects.get? idx with
      | none => s
      | some o =>
        let nodes := s.scene.objects.map (editNodeUpdate ui objectId)
        let o2 :=
          { o with
              scale := ⟨ui.size, ui.size, ui.size⟩
              color := ui.color
              transparency := ui.transparency
              isPhysical := ui.isPhysical
              isPhantom := ui.isPhantom
              isTemporary := ui.isTemporary }
        let s1 := { s with
          scene := { s.scene with objects := nodes }
          objects := s.objects.set idx o2 }
        { s1 with log := s1.log ++ [(s!"Updated object with ID: {objectId}", "info")] }

/-- `SceneManager.removeObject` (scene.js 143-155): `indexOf` + `splice`
(erase the first matching pickable, nothing if absent), `scene.remove`,
and, if the removed node was the selected one, clear the selection and
disable the edit/delete buttons. No emissive restore and no event. -/
def removeObject (s : WorldState) (objectId : Nat) : WorldState :=
  let nodes := s.scene.objects.eraseP (fun n => n.nodeId == objectId)
  let s1 := { s with scene := { s.scene with objects := nodes } }
  if s1.scene.selectedObject == some objectId then
    { s1 with
        scene := { s1.scene with selectedObject := none },
        editDisabled := true, deleteDisabled := true }
  else s1

/-- `ObjectManager.deleteSelectedObject` (object.js 180-198): no-op without
a selection; removes the node from the scene, then the record
(`findIndex` + `splice`), and logs. -/
def deleteSelectedObject (s : WorldState) : WorldState :=
  match s.scene.selectedObject with
  | none => s
  | some objectId =>
    let s1 := removeObject s objectId
    let s2 := { s1 with objects := s1.objects.eraseP (fun o => o.id == objectId) }
    { s2 with log := s2.log ++ [(s!"Deleted object with ID: {objectId}", "info")] }

/-- The emissive restore of `selectObject` line 107 / `deselectObject` line
125, applied to the node the selected reference points at:
`material.emissive.setHex(currentHex)`. -/
def restoreEmissive (j : Nat) (n : SceneNode) : SceneNode :=
  if n.nodeId == j then { n with emissive := n.currentHex } else n

/-- The highlight of `selectObject` lines 111-112, applied to the newly
selected node: save the current emissive into `currentHex`, then
`emissive.setHex(0x333333)`. -/
def applyHighlight (i : Nat) (n : SceneNode) : SceneNode :=
  if n.nodeId == i then
    { n with currentHex := n.emissive, emissive := 0x333333 }
  else n

/-- `SceneManager.selectObject` (scene.js 104-121), line by line: restore
the previously selected node's emissive from its saved `currentHex`, set
the selection, save the (possibly just restored) emissive of the newly
selected node into `currentHex`, apply the 0x333333 highlight, enable the
buttons and dispatch `objectSelected`. -/
def selectObject (s : WorldState) (objectId : Nat) : WorldState :=
  let nodes : List SceneNode :=
    match s.scene.selectedObject with
    | some j => s.scene.objects.map (restoreEmissive j)
    | none => s.scene.objects
  let nodes2 := nodes.map (applyHighlight objectId)
  { s with
      scene := { s.scene with objects := nodes2, selectedObject := some objectId },
      editDisabled := false, deleteDisabled := false,
      events := s.events ++ [.objectSelected objectId] }

/-- `SceneManager.onMouseDown` (scene.js 83-102) only ever selects a node
returned by `intersectObjects(this.objects)`, i.e. a member of the pickable
list; picking a node that is not registered is impossible. -/
def pickSelect (s : WorldState) (objectId : Nat) : WorldState :=
  if s.scene.objects.any (fun n => n.nodeId == objectId) then
    selectObject s objectId
  else s

/-- `SceneManager.deselectObject` (scene.js 123-136): restore the selected
node's emissive from `currentHex`, clear the selection, disable the
buttons, dispatch `objectDeselected`; no-op when nothing is selected. -/
def deselectObject (s : WorldState) : WorldState :=
  match s.scene.selectedObject with
  | none => s
  | some j =>
    { s with
        scene := { s.scene with
          objects := s.scene.objects.map (restoreEmissive j),
          selectedObject := none },
        editDisabled := true, deleteDisabled := true,
        events := s.events ++ [.objectDeselected] }

/-- The user-drivable operations on the world. -/
inductive Op where
  | createUI (ui : UIParams)
  | createInv (item : InventoryItem) (randomColor : String)
  | edit (ui : UIParams)
  | deleteSel
  | select (objectId : Nat)
  | deselect
deriving DecidableEq, Repr

/-- Dispatch one operation. -/
def applyOp (s : WorldState) : Op → WorldState
  | .createUI ui => createObjectFromUI s ui
  | .createInv item c => loadObjectFromInventory s item c
  | .edit ui => editSelectedObject s ui
  | .deleteSel => deleteSelectedObject s
  | .select i => pickSelect s i
  | .deselect => deselectObject s

/-- Run a sequence of operations from a given state. -/
def runFrom (s : WorldState) (ops : List Op) : WorldState := ops.foldl applyOp s

/-- The initial world: empty scene and registry, `nextObjectId = 1`
(object.js 10), nothing selected, buttons disabled. -/
def initState : WorldState :=
  { scene := { objects := [], selectedObject := none }
    objects := []
    nextObjectId := 1
    editDisabled := true
    deleteDisabled := true
    events := []
    log := [] }

/-- Run a sequence of operations from the initial world. -/
def run (ops : List Op) : WorldState := runFrom initState ops

/-- The pickable list's node ids, in registration order. -/
def sceneIds (s : WorldState) : List Nat := s.scene.objects.map SceneNode.nodeId

/-- The registry's record ids, in creation order. -/
def recordIds (s : WorldState) : List Nat := s.objects.map ObjectData.id

/-- The emissive color of the first pickable node with the given id. -/
def emissiveOf (s : WorldState) (i : Nat) : Option Nat :=
  (s.scene.objects.find? (fun n => n.nodeId == i)).map SceneNode.emissive

/-- The saved `currentHex` slot of the first pickable node with the given id. -/
def savedHexOf (s : WorldState) (i : Nat) : Option Nat :=
  (s.scene.objects.find? (fun n => n.nodeId == i)).map SceneNode.currentHex

/-! ## List helpers -/

/-- Mapping an update that preserves `f` leaves the `f`-image of the list
unchanged. -/
theorem map_map_proj {α β : Type _} (f : α → β) (g : α → α)
    (hg : ∀ a, f (g a) = f a) (l : List α) :
    (l.map g).map f = l.map f := by
  rw [List.map_map]
  exact List.map_congr_left fun a _ => hg a

theorem nodeId_restoreEmissive (j : Nat) (n : SceneNode) :
    (restoreEmissive j n).nodeId = n.nodeId := by
  unfold restoreEmissive
  split <;> rfl

theorem nodeId_applyHighlight (i : Nat) (n : SceneNode) :
    (applyHighlight i n).nodeId = n.nodeId := by
  unfold applyHighlight
  split <;> rfl

theorem nodeId_editNodeUpdate (ui : UIParams) (i : Nat) (n : SceneNode) :
    (editNodeUpdate ui i n).nodeId = n.nodeId := by
  unfold editNodeUpdate
  split <;> rfl

/-- Setting an index to the value it already holds is the identity. -/
theorem set_same {β : Type _} (l : List β) (i : Nat) (b : β)
    (hb : l.get? i = some b) : l.set i b = l := by
  induction l generalizing i with
  | nil => simp at hb
  | cons x l ih =>
    cases i with
    | zero => simp_all
    | succ n =>
      simp only [List.get?_cons_succ] at hb
      simp [ih n hb]

/-- Setting an index to a value with the same `f`-image as the current one
preserves the `f`-image of the list. -/
theorem map_set_eq {α β : Type _} (f : α → β) (l : List α) (i : Nat) (a b : α)
    (hb : l.get? i = some b) (h : f a = f b) :
    (l.set i a).map f = l.map f := by
  rw [List.map_set]
  have : (l.map f).get? i = some (f a) := by
    rw [List.get?_eq_getElem?, List.getElem?_map, ← List.get?_eq_getElem?, hb, h]
    rfl
  exact set_same _ _ _ this

/-! ## C1 — registry / pickable-list correspondence -/

/-- The selected reference, when present, points at a registered pickable. -/
def selOk (s : WorldState) : Prop :=
  match s.scene.selectedObject with
  | some i => i ∈ sceneIds s
  | none => True

/-- The reachable-state invariant: pickable-node ids and registry record
ids agree (in order), record ids are pairwise distinct and below the id
counter, and any selection points at a registered pickable. -/
def Inv (s : WorldState) : Prop :=
  sceneIds s = recordIds s ∧ (recordIds s).Nodup ∧
  (∀ i ∈ recordIds s, i < s.nextObjectId) ∧ selOk s

theorem inv_init : Inv initState := by
  refine ⟨rfl, List.nodup_nil, ?_, trivial⟩
  intro i hi
  simp [recordIds, initState] at hi

theorem inv_createUI (s : WorldState) (ui : UIParams) (h : Inv s) :
    Inv (createObjectFromUI s ui) := by
  obtain ⟨hc, hn, hb, hs⟩ := h
  have hscene : sceneIds (createObjectFromUI s ui) = sceneIds s ++ [s.nextObjectId] := by
    simp [createObjectFromUI, createObject, addObject, buildNode, sceneIds]
  have hrec : recordIds (createObjectFromUI s ui) = recordIds s ++ [s.nextObjectId] := by
    simp [createObjectFromUI, createObject, addObject, recordIds]
  have hnext : (createObjectFromUI s ui).nextObjectId = s.nextObjectId + 1 := by
    simp [createObjectFromUI, createObject, addObject]
  have hselu : (createObjectFromUI s ui).scene.selectedObject = s.scene.selectedObject := by
    simp [createObjectFromUI, createObject, addObject]
  refine ⟨by rw [hscene, hrec, hc], ?_, ?_, ?_⟩
  · rw [hrec]
    simp only [List.nodup_append, List.nodup_cons, List.not_mem_nil,
      not_false_eq_true, List.nodup_nil, and_true, true_and]
    refine ⟨hn, ?_⟩
    intro a ha
    simp only [List.mem_singleton]
    exact Nat.ne_of_lt (hb a ha)
  · rw [hrec, hnext]
    intro i hi
    rcases List.mem_append.1 hi with hi | hi
    · exact Nat.lt_trans (hb i hi) (Nat.lt_succ_self _)
    · simp only [List.mem_singleton] at hi
      subst hi
      exact Nat.lt_succ_self _
  · unfold selOk
    rw [hselu, hscene]
    unfold selOk at hs
    cases hso : s.scene.selectedObject with
    | none => trivial
    | some i =>
      rw [hso] at hs
      exact List.mem_append_left _ hs

theorem inv_createInv (s : WorldState) (item : InventoryItem) (c : String)
    (h : Inv s) : Inv (loadObjectFromInventory s item c) := by
  obtain ⟨hc, hn, hb, hs⟩ := h
  have hscene : sceneIds (loadObjectFromInventory s item c) = sceneIds s ++ [s.nextObjectId] := by
    simp [loadObjectFromInventory, createObject, addObject, buildNode, sceneIds]
  have hrec : recordIds (loadObjectFromInventory s item c) = recordIds s ++ [s.nextObjectId] := by
    simp [loadObjectFromInventory, createObject, addObject, recordIds]
  have hnext : (loadObjectFromInventory s item c).nextObjectId = s.nextObjectId + 1 := by
    simp [loadObjectFromInventory, createObject, addObject]
  have hselu : (loadObjectFromInventory s item c).scene.selectedObject = s.scene.selectedObject := by
    simp [loadObjectFromInventory, createObject, addObject]
  refine ⟨by rw [hscene, hrec, hc], ?_, ?_, ?_⟩
  · rw [hrec]
    simp only [List.nodup_append, List.nodup_cons, List.not_mem_nil,
      not_false_eq_true, List.nodup_nil, and_true, true_and]
    refine ⟨hn, ?_⟩
    intro a ha
    simp only [List.mem_singleton]
    exact Nat.ne_of_lt (hb a ha)
  · rw [hrec, hnext]
    intro i hi
    rcases List.mem_append.1 hi with hi | hi
    · exact Nat.lt_trans (hb i hi) (Nat.lt_succ_self _)
    · simp only [List.mem_singleton] at hi
      subst hi
      exact Nat.lt_succ_self _
  · unfold selOk
    rw [hselu, hscene]
    unfold selOk at hs
    cases hso : s.scene.selectedObject with
    | none => trivial
    | some i =>
      rw [hso] at hs
      exact List.mem_append_left _ hs

theorem inv_edit (s : WorldState) (ui : UIParams) (h : Inv s) :
    Inv (editSelectedObject s ui) := by
  obtain ⟨hc, hn, hb, hs⟩ := h
  cases hsel : s.scene.selectedObject with
  | none =>
    simp only [editSelectedObject, hsel]
    exact ⟨hc, hn, hb, hs⟩
  | some objectId =>
    cases hidx : s.objects.findIdx? (fun o => o.id == objectId) with
    | none =>
      simp only [editSelectedObject, hsel, hidx]
      exact ⟨hc, hn, hb, hs⟩
    | some idx =>
      cases hget : s.objects.get? idx with
      | none =>
        simp only [editSelectedObject, hsel, hidx, hget]
        exact ⟨hc, hn, hb, hs⟩
      | some o =>
        simp only [editSelectedObject, hsel, hidx, hget]
        unfold Inv selOk sceneIds recordIds
        dsimp only
        rw [map_map_proj SceneNode.nodeId (editNodeUpdate ui objectId)
            (nodeId_editNodeUpdate ui objectId),
          map_set_eq ObjectData.id s.objects idx
            { o with
                scale := ⟨ui.size, ui.size, ui.size⟩
                color := ui.color
                transparency := ui.transparency
                isPhysical := ui.isPhysical
                isPhantom := ui.isPhantom
                isTemporary := ui.isTemporary } o hget rfl]
        unfold sceneIds recordIds at hc
        unfold recordIds at hn hb
        unfold selOk at hs
        rw [hsel] at hs
        unfold sceneIds at hs
        exact ⟨hc, hn, hb, hs⟩

theorem inv_delete (s : WorldState) (h : Inv s) :
    Inv (deleteSelectedObject s) := by
  obtain ⟨hc, hn, hb, hs⟩ := h
  cases hsel : s.scene.selectedObject with
  | none =>
    simp only [deleteSelectedObject, hsel]
    exact ⟨hc, hn, hb, hs⟩
  | some objectId =>
    simp only [deleteSelectedObject, removeObject, hsel, beq_self_eq_true, if_pos]
    have hscene :
        (s.scene.objects.eraseP (fun n => n.nodeId == objectId)).map SceneNode.nodeId
          = (s.scene.objects.map SceneNode.nodeId).eraseP (fun i => i == objectId) := by
      rw [List.eraseP_map]
      rfl
    have hrec :
        (s.objects.eraseP (fun o => o.id == objectId)).map ObjectData.id
          = (s.objects.map ObjectData.id).eraseP (fun i => i == objectId) := by
      rw [List.eraseP_map]
      rfl
    unfold Inv sceneIds recordIds selOk
    unfold sceneIds recordIds at hc
    unfold recordIds at hn hb
    dsimp only
    rw [hscene, hrec]
    refine ⟨by rw [hc], ?_, ?_, trivial⟩
    · exact ((List.eraseP_sublist _).nodup) hn
    · intro i hi
      exact hb i ((List.eraseP_sublist _).subset hi)

theorem inv_select (s : WorldState) (objectId : Nat) (h : Inv s) :
    Inv (pickSelect s objectId) := by
  obtain ⟨hc, hn, hb, hs⟩ := h
  cases hany : s.scene.objects.any (fun n => n.nodeId == objectId) with
  | false =>
    simp only [pickSelect, hany, Bool.false_eq_true, if_false]
    exact ⟨hc, hn, hb, hs⟩
  | true =>
    have hmem : objectId ∈ sceneIds s := by
      rcases List.any_eq_true.1 hany with ⟨n, hnmem, hp⟩
      have hn2 : n.nodeId = objectId := eq_of_beq hp
      exact hn2 ▸ List.mem_map_of_mem SceneNode.nodeId hnmem
    cases hsel : s.scene.selectedObject with
    | none =>
      simp only [pickSelect, hany, if_true, selectObject, hsel]
      unfold Inv selOk sceneIds recordIds
      unfold sceneIds recordIds at hc
      unfold recordIds at hn hb
      unfold sceneIds at hmem
      dsimp only
      rw [map_map_proj SceneNode.nodeId (applyHighlight objectId)
        (nodeId_applyHighlight objectId)]
      exact ⟨hc, hn, hb, hmem⟩
    | some j =>
      simp only [pickSelect, hany, if_true, selectObject, hsel]
      unfold Inv selOk sceneIds recordIds
      unfold sceneIds recordIds at hc
      unfold recordIds at hn hb
      unfold sceneIds at hmem
      dsimp only
      rw [map_map_proj SceneNode.nodeId (applyHighlight objectId)
        (nodeId_applyHighlight objectId),
        map_map_proj SceneNode.nodeId (restoreEmissive j)
          (nodeId_restoreEmissive j)]
      exact ⟨hc, hn, hb, hmem⟩

theorem inv_deselect (s : WorldState) (h : Inv s) :
    Inv (deselectObject s) := by
  obtain ⟨hc, hn, hb, hs⟩ := h
  cases hsel : s.scene.selectedObject with
  | none =>
    simp only [deselectObject, hsel]
    exact ⟨hc, hn, hb, hs⟩
  | some j =>
    simp only [deselectObject, hsel]
    unfold Inv sceneIds recordIds selOk
    unfold sceneIds recordIds at hc
    unfold recordIds at hn hb
    dsimp only
    rw [map_map_proj SceneNode.nodeId (restoreEmissive j)
        (nodeId_restoreEmissive j)]
    exact ⟨hc, hn, hb, trivial⟩

theorem inv_applyOp (s : WorldState) (op : Op) (h : Inv s) : Inv (applyOp s op) := by
  cases op with
  | createUI ui => exact inv_createUI s ui h
  | createInv item c => exact inv_createInv s item c h
  | edit ui => exact inv_edit s ui h
  | deleteSel => exact inv_delete s h
  | select i => exact inv_select s i h
  | deselect => exact inv_deselect s h

theorem inv_runFrom (s : WorldState) (ops : List Op) (h : Inv s) :
    Inv (runFrom s ops) := by
  induction ops generalizing s with
  | nil => exact h
  | cons op ops ih => exact ih _ (inv_applyOp s op h)

theorem inv_run (ops : List Op) : Inv (run ops) := inv_runFrom _ _ inv_init

/-- C1: For every sequence of World Object Registry operations (create from
the build UI, create from an inventory item, edit of the selected object,
delete of the selected object — together with pick-selection and
deselection), the registry's record list and the Scene Graph's pickable
list remain in one-to-one correspondence by object id: the lists of ids
are equal (elementwise, in order), so every operation adds, mutates or
removes a record and its scene node together. -/
theorem registry_scene_one_to_one (ops : List Op) :
    sceneIds (run ops) = recordIds (run ops) := (inv_run ops).1

/-! ## C2 / C10 — the selection highlight and emissive restoration

`orig` is the ghost assignment of each node's true (pre-selection) emissive
color. `emissiveOk` states that an unselected node shows its true emissive
(no residual tint) and that the selected node shows the 0x333333 highlight
with its true emissive saved in `currentHex`. -/

theorem editNodeUpdate_emissive (ui : UIParams) (i : Nat) (n : SceneNode) :
    (editNodeUpdate ui i n).emissive = n.emissive := by
  unfold editNodeUpdate
  split <;> rfl

theorem editNodeUpdate_currentHex (ui : UIParams) (i : Nat) (n : SceneNode) :
    (editNodeUpdate ui i n).currentHex = n.currentHex := by
  unfold editNodeUpdate
  split <;> rfl

def emissiveOk (orig : Nat → Nat) (s : WorldState) : Prop :=
  ∀ n ∈ s.scene.objects,
    (s.scene.selectedObject = some n.nodeId →
        n.emissive = 0x333333 ∧ n.currentHex = orig n.nodeId) ∧
    (s.scene.selectedObject ≠ some n.nodeId → n.emissive = orig n.nodeId)

/-- The full emissive invariant: the structural invariant, the per-node
emissive facts, and the guarantee that ids not yet allocated have true
emissive 0 (the `MeshStandardMaterial` default of freshly created nodes). -/
def EmInv (orig : Nat → Nat) (s : WorldState) : Prop :=
  Inv s ∧ emissiveOk orig s ∧ ∀ i, s.nextObjectId ≤ i → orig i = 0

theorem sel_lt_next (s : WorldState) (h : Inv s) (j : Nat)
    (hj : s.scene.selectedObject = some j) : j < s.nextObjectId := by
  obtain ⟨hc, _hn, hb, hs⟩ := h
  unfold selOk at hs
  rw [hj] at hs
  exact hb j (hc ▸ hs)

/-- In a nodup list, every element surviving `eraseP (f · == j)` has
`f`-value different from `j`, provided `j` occurs in the `f`-image. -/
theorem mem_eraseP_map_ne {α : Type _} (f : α → Nat) (j : Nat) (l : List α)
    (hnd : (l.map f).Nodup) (hj : j ∈ l.map f) (a : α)
    (ha : a ∈ l.eraseP (fun x => f x == j)) : f a ≠ j := by
  induction l with
  | nil => simp at ha
  | cons x l ih =>
    simp only [List.map_cons, List.nodup_cons] at hnd
    obtain ⟨hx, hnd⟩ := hnd
    by_cases hfx : (f x == j) = true
    · simp only [List.eraseP_cons, hfx, cond_true] at ha
      have hfxj : f x = j := eq_of_beq hfx
      intro hfa
      exact hx (by rw [hfxj, ← hfa]; exact List.mem_map_of_mem f ha)
    · have hfx2 : (f x == j) = false := by simpa using hfx
      simp only [List.eraseP_cons, hfx2, cond_false] at ha
      rcases List.mem_cons.1 ha with rfl | ha
      · intro hfa
        exact hfx (beq_iff_eq.2 hfa)
      · have hj2 : j ∈ l.map f := by
          rcases List.mem_cons.1 hj with h | h
          · exact absurd (beq_iff_eq.2 h.symm) hfx
          · exact h
        exact ih hnd hj2 ha

theorem eminv_createUI (orig : Nat → Nat) (s : WorldState) (ui : UIParams)
    (h : EmInv orig s) : EmInv orig (createObjectFromUI s ui) := by
  obtain ⟨hI, hE, hZ⟩ := h
  refine ⟨inv_createUI s ui hI, ?_, ?_⟩
  · unfold emissiveOk
    simp only [createObjectFromUI, createObject, addObject]
    intro n hn
    rcases List.mem_append.1 hn with hn | hn
    · exact hE n hn
    · simp only [List.mem_singleton] at hn
      subst hn
      constructor
      · intro hsel
        exfalso
        have := sel_lt_next s hI _ hsel
        simp only [buildNode] at this
        exact Nat.lt_irrefl _ this
      · intro _
        show (0 : Nat) = orig _
        exact (hZ s.nextObjectId (Nat.le_refl _)).symm
  · intro i hi
    apply hZ
    have : (createObjectFromUI s ui).nextObjectId = s.nextObjectId + 1 := by
      simp [createObjectFromUI, createObject, addObject]
    omega

theorem eminv_createInv (orig : Nat → Nat) (s : WorldState)
    (item : InventoryItem) (c : String)
    (h : EmInv orig s) : EmInv orig (loadObjectFromInventory s item c) := by
  obtain ⟨hI, hE, hZ⟩ := h
  refine ⟨inv_createInv s item c hI, ?_, ?_⟩
  · unfold emissiveOk
    simp only [loadObjectFromInventory, createObject, addObject]
    intro n hn
    rcases List.mem_append.1 hn with hn | hn
    · exact hE n hn
    · simp only [List.mem_singleton] at hn
      subst hn
      constructor
      · intro hsel
        exfalso
        have := sel_lt_next s hI _ hsel
        simp only [buildNode] at this
        exact Nat.lt_irrefl _ this
      · intro _
        show (0 : Nat) = orig _
        exact (hZ s.nextObjectId (Nat.le_refl _)).symm
  · intro i hi
    apply hZ
    have : (loadObjectFromInventory s item c).nextObjectId = s.nextObjectId + 1 := by
      simp [loadObjectFromInventory, createObject, addObject]
    omega

theorem eminv_edit (orig : Nat → Nat) (s : WorldState) (ui : UIParams)
    (h : EmInv orig s) : EmInv orig (editSelectedObject s ui) := by
  obtain ⟨hI, hE, hZ⟩ := h
  refine ⟨inv_edit s ui hI, ?_, ?_⟩
  · cases hsel : s.scene.selectedObject with
    | none =>
      simp only [editSelectedObject, hsel]
      exact hE
    | some objectId =>
      cases hidx : s.objects.findIdx? (fun o => o.id == objectId) with
      | none =>
        simp only [editSelectedObject, hsel, hidx]
        exact hE
      | some idx =>
        cases hget : s.objects.get? idx with
        | none =>
          simp only [editSelectedObject, hsel, hidx, hget]
          exact hE
        | some o =>
          simp only [editSelectedObject, hsel, hidx, hget]
          unfold emissiveOk
          dsimp only
          intro n hn
          obtain ⟨m, hm, rfl⟩ := List.mem_map.1 hn
          rw [nodeId_editNodeUpdate, editNodeUpdate_emissive, editNodeUpdate_currentHex]
          have := hE m hm
          rw [hsel] at this
          exact this
  · intro i hi
    apply hZ
    have hnext : (editSelectedObject s ui).nextObjectId = s.nextObjectId := by
      cases hsel : s.scene.selectedObject with
      | none => simp only [editSelectedObject, hsel]
      | some objectId =>
        cases hidx : s.objects.findIdx? (fun o => o.id == objectId) with
        | none => simp only [editSelectedObject, hsel, hidx]
        | some idx =>
          cases hget : s.objects.get? idx with
          | none => simp only [editSelectedObject, hsel, hidx, hget]
          | some o => simp only [editSelectedObject, hsel, hidx, hget]
    omega

theorem eminv_delete (orig : Nat → Nat) (s : WorldState)
    (h : EmInv orig s) : EmInv orig (deleteSelectedObject s) := by
  obtain ⟨hI, hE, hZ⟩ := h
  refine ⟨inv_delete s hI, ?_, ?_⟩
  · cases hsel : s.scene.selectedObject with
    | none =>
      simp only [deleteSelectedObject, hsel]
      exact hE
    | some objectId =>
      simp only [deleteSelectedObject, removeObject, hsel, beq_self_eq_true, if_pos]
      unfold emissiveOk
      dsimp only
      intro n hn
      obtain ⟨hc, hnd, hb, hsOk⟩ := hI
      have hndScene : (s.scene.objects.map SceneNode.nodeId).Nodup := by
        unfold sceneIds recordIds at hc
        rw [hc]
        exact hnd
      have hjmem : objectId ∈ s.scene.objects.map SceneNode.nodeId := by
        unfold selOk at hsOk
        rw [hsel] at hsOk
        exact hsOk
      have hne : n.nodeId ≠ objectId :=
        mem_eraseP_map_ne SceneNode.nodeId objectId s.scene.objects
          hndScene hjmem n hn
      constructor
      · intro hfalse
        exact absurd hfalse (by simp)
      · intro _
        have hmem : n ∈ s.scene.objects := (List.eraseP_sublist _).subset hn
        have := (hE n hmem).2
        rw [hsel] at this
        apply this
        intro hcontra
        exact hne (Option.some.inj hcontra).symm
  · intro i hi
    apply hZ
    have hnext : (deleteSelectedObject s).nextObjectId = s.nextObjectId := by
      cases hsel : s.scene.selectedObject with
      | none => simp only [deleteSelectedObject, hsel]
      | some objectId =>
        simp only [deleteSelectedObject, removeObject, hsel, beq_self_eq_true, if_pos]
    omega

/-- Restoring the selected node's emissive yields its true color: the
selected node's saved slot holds `orig`, every other node already shows
`orig`. -/
theorem restoreEmissive_sel (orig : Nat → Nat) (s : WorldState) (j : Nat)
    (hE : emissiveOk orig s) (hsel : s.scene.selectedObject = some j)
    (m : SceneNode) (hm : m ∈ s.scene.objects) :
    (restoreEmissive j m).emissive = orig m.nodeId ∧
    (restoreEmissive j m).nodeId = m.nodeId := by
  refine ⟨?_, nodeId_restoreEmissive j m⟩
  by_cases hmj : (m.nodeId == j) = true
  · have hmjeq : m.nodeId = j := eq_of_beq hmj
    have h2 := (hE m hm).1 (by rw [hsel, hmjeq])
    simp only [restoreEmissive, hmj, if_true]
    exact h2.2
  · have hmj2 : (m.nodeId == j) = false := by simpa using hmj
    simp only [restoreEmissive, hmj2, Bool.false_eq_true, if_false]
    have h2 := (hE m hm).2
    rw [hsel] at h2
    apply h2
    intro hcontra
    have hj : m.nodeId = j := (Option.some.inj hcontra).symm
    exact hmj (beq_iff_eq.2 hj)

/-- The highlight step establishes the emissive facts for the new
selection, given that the node's emissive shows its true color. -/
theorem applyHighlight_cases (orig : Nat → Nat) (objectId : Nat)
    (r : SceneNode) (hre : r.emissive = orig r.nodeId) :
    (some objectId = some (applyHighlight objectId r).nodeId →
        (applyHighlight objectId r).emissive = 0x333333 ∧
        (applyHighlight objectId r).currentHex
          = orig (applyHighlight objectId r).nodeId) ∧
    (some objectId ≠ some (applyHighlight objectId r).nodeId →
        (applyHighlight objectId r).emissive
          = orig (applyHighlight objectId r).nodeId) := by
  by_cases hri : (r.nodeId == objectId) = true
  · have e1 : (applyHighlight objectId r).emissive = 0x333333 := by
      simp [applyHighlight, hri]
    have e2 : (applyHighlight objectId r).currentHex = r.emissive := by
      simp [applyHighlight, hri]
    have e3 : (applyHighlight objectId r).nodeId = r.nodeId :=
      nodeId_applyHighlight _ _
    constructor
    · intro _
      rw [e1, e2, e3]
      exact ⟨rfl, hre⟩
    · intro hne
      exfalso
      apply hne
      rw [e3, eq_of_beq hri]
  · have hri2 : (r.nodeId == objectId) = false := by simpa using hri
    have e0 : applyHighlight objectId r = r := by
      simp [applyHighlight, hri2]
    rw [e0]
    constructor
    · intro hq
      exact absurd (Option.some.inj hq).symm (by simpa using hri)
    · intro _
      exact hre

theorem eminv_select (orig : Nat → Nat) (s : WorldState) (objectId : Nat)
    (h : EmInv orig s) : EmInv orig (pickSelect s objectId) := by
  obtain ⟨hI, hE, hZ⟩ := h
  refine ⟨inv_select s objectId hI, ?_, ?_⟩
  · cases hany : s.scene.objects.any (fun n => n.nodeId == objectId) with
    | false =>
      simp only [pickSelect, hany, Bool.false_eq_true, if_false]
      exact hE
    | true =>
      cases hsel : s.scene.selectedObject with
      | none =>
        simp only [pickSelect, hany, if_true, selectObject, hsel]
        unfold emissiveOk
        dsimp only
        intro n hn
        obtain ⟨m, hm, rfl⟩ := List.mem_map.1 hn
        have hre : m.emissive = orig m.nodeId := by
          have h2 := (hE m hm).2
          rw [hsel] at h2
          exact h2 (by simp)
        exact applyHighlight_cases orig objectId m hre
      | some j =>
        simp only [pickSelect, hany, if_true, selectObject, hsel]
        unfold emissiveOk
        dsimp only
        intro n hn
        obtain ⟨m1, hm1, rfl⟩ := List.mem_map.1 hn
        obtain ⟨m, hm, rfl⟩ := List.mem_map.1 hm1
        have hr := restoreEmissive_sel orig s j hE hsel m hm
        have hre : (restoreEmissive j m).emissive
            = orig (restoreEmissive j m).nodeId := by
          rw [hr.2]
          exact hr.1
        exact applyHighlight_cases orig objectId _ hre
  · cases hany : s.scene.objects.any (fun n => n.nodeId == objectId) with
    | false =>
      simp only [pickSelect, hany, Bool.false_eq_true, if_false]
      exact hZ
    | true =>
      intro i hi
      apply hZ
      have : (pickSelect s objectId).nextObjectId = s.nextObjectId := by
        cases hsel : s.scene.selectedObject with
        | none => simp only [pickSelect, hany, if_true, selectObject, hsel]
        | some j => simp only [pickSelect, hany, if_true, selectObject, hsel]
      omega

theorem eminv_deselect (orig : Nat → Nat) (s : WorldState)
    (h : EmInv orig s) : EmInv orig (deselectObject s) := by
  obtain ⟨hI, hE, hZ⟩ := h
  refine ⟨inv_deselect s hI, ?_, ?_⟩
  · cases hsel : s.scene.selectedObject with
    | none =>
      simp only [deselectObject, hsel]
      exact hE
    | some j =>
      simp only [deselectObject, hsel]
      unfold emissiveOk
      dsimp only
      intro n hn
      obtain ⟨m, hm, rfl⟩ := List.mem_map.1 hn
      have hr := restoreEmissive_sel orig s j hE hsel m hm
      constructor
      · intro hfalse
        exact absurd hfalse (by simp)
      · intro _
        rw [hr.2]
        exact hr.1
  · intro i hi
    apply hZ
    have : (deselectObject s).nextObjectId = s.nextObjectId := by
      cases hsel : s.scene.selectedObject with
      | none => simp only [deselectObject, hsel]
      | some j => simp only [deselectObject, hsel]
    omega

theorem eminv_applyOp (orig : Nat → Nat) (s : WorldState) (op : Op)
    (h : EmInv orig s) : EmInv orig (applyOp s op) := by
  cases op with
  | createUI ui => exact eminv_createUI orig s ui h
  | createInv item c => exact eminv_createInv orig s item c h
  | edit ui => exact eminv_edit orig s ui h
  | deleteSel => exact eminv_delete orig s h
  | select i => exact eminv_select orig s i h
  | deselect => exact eminv_deselect orig s h

theorem eminv_runFrom (orig : Nat → Nat) (s : WorldState) (ops : List Op)
    (h : EmInv orig s) : EmInv orig (runFrom s ops) := by
  induction ops generalizing s with
  | nil => exact h
  | cons op ops ih => exact ih _ (eminv_applyOp orig s op h)

/-- Reading a projection of the first node with a given id through `find?`,
when the id is present and every node with that id has the projection value. -/
theorem find_map_eq (l : List SceneNode) (i v : Nat) (f : SceneNode → Nat)
    (hex : i ∈ l.map SceneNode.nodeId)
    (hall : ∀ n ∈ l, n.nodeId = i → f n = v) :
    (l.find? (fun n => n.nodeId == i)).map f = some v := by
  induction l with
  | nil => simp at hex
  | cons x l ih =>
    by_cases hx : (x.nodeId == i) = true
    · have hfx : List.find? (fun n => n.nodeId == i) (x :: l) = some x :=
        List.find?_cons_of_pos l hx
      rw [hfx]
      show some (f x) = some v
      rw [hall x (List.mem_cons_self x l) (eq_of_beq hx)]
    · have hfx : List.find? (fun n => n.nodeId == i) (x :: l)
          = List.find? (fun n => n.nodeId == i) l :=
        List.find?_cons_of_neg l (by simpa using hx)
      rw [hfx]
      apply ih
      · rcases List.mem_cons.1 hex with h | h
        · exact absurd (beq_iff_eq.2 h.symm) hx
        · exact h
      · intro n hn ha
        exact hall n (List.mem_cons_of_mem _ hn) ha

/-- C2: At every moment at most one scene node is selected (the scene holds
a single `selectedObject` reference), and selecting object B while object A
is selected restores A's emissive color to exactly the value A had before
it was selected (its ghost `orig` value — no residual tint) and leaves B as
the sole selected node. The restore happens on line 107 before the
highlight on line 112 of scene.js; the final state shows exactly the
restored value. -/
theorem select_new_restores_previous_exactly
    (s0 : WorldState) (orig : Nat → Nat) (ops : List Op) (A B : Nat)
    (h0 : EmInv orig s0)
    (hsel : (runFrom s0 ops).scene.selectedObject = some A)
    (hAB : A ≠ B)
    (hB : B ∈ sceneIds (runFrom s0 ops)) :
    (applyOp (runFrom s0 ops) (Op.select B)).scene.selectedObject = some B ∧
    emissiveOf (applyOp (runFrom s0 ops) (Op.select B)) A = some (orig A) := by
  have hEm := eminv_runFrom orig s0 ops h0
  obtain ⟨hI, hE, hZ⟩ := hEm
  set s := runFrom s0 ops with hsdef
  have hany : (s.scene.objects.any fun n => n.nodeId == B) = true := by
    rcases List.mem_map.1 hB with ⟨n, hn, he⟩
    exact List.any_eq_true.2 ⟨n, hn, beq_iff_eq.2 he⟩
  have hstep : applyOp s (Op.select B) = selectObject s B := by
    simp [applyOp, pickSelect, hany]
  rw [hstep]
  refine ⟨by simp [selectObject], ?_⟩
  simp only [selectObject, hsel]
  unfold emissiveOf
  dsimp only
  apply find_map_eq
  · rw [map_map_proj SceneNode.nodeId (applyHighlight B) (nodeId_applyHighlight B),
      map_map_proj SceneNode.nodeId (restoreEmissive A) (nodeId_restoreEmissive A)]
    have hsOk := hI.2.2.2
    unfold selOk at hsOk
    rw [hsel] at hsOk
    exact hsOk
  · intro n hn hna
    obtain ⟨m1, hm1, rfl⟩ := List.mem_map.1 hn
    obtain ⟨m, hm, rfl⟩ := List.mem_map.1 hm1
    have hr := restoreEmissive_sel orig s A hE hsel m hm
    have hmid : m.nodeId = A := by
      rw [nodeId_applyHighlight, hr.2] at hna
      exact hna
    have hfalse : ((restoreEmissive A m).nodeId == B) = false := by
      rw [hr.2, hmid]
      exact beq_eq_false_iff_ne.2 hAB
    have e0 : applyHighlight B (restoreEmissive A m) = restoreEmissive A m := by
      simp [applyHighlight, hfalse]
    rw [e0, hr.1, hmid]

/-- C10: Calling `selectObject` on the node that is already selected
preserves the node's stored pre-selection emissive value: the highlight is
removed before the original emissive is re-sampled into `currentHex`, so
after re-selection the saved slot still holds the node's true original
emissive (never the 0x333333 highlight, unless that was the original), the
node shows the highlight, and a subsequent deselection restores the true
original emissive. -/
theorem reselect_preserves_saved_original
    (s0 : WorldState) (orig : Nat → Nat) (ops : List Op) (A : Nat)
    (h0 : EmInv orig s0)
    (hsel : (runFrom s0 ops).scene.selectedObject = some A) :
    savedHexOf (applyOp (runFrom s0 ops) (Op.select A)) A = some (orig A) ∧
    emissiveOf (applyOp (runFrom s0 ops) (Op.select A)) A = some 0x333333 ∧
    emissiveOf (deselectObject (applyOp (runFrom s0 ops) (Op.select A))) A
      = some (orig A) := by
  have hEm := eminv_runFrom orig s0 ops h0
  set s := runFrom s0 ops with hsdef
  have hAmem0 : A ∈ sceneIds s := by
    have hsOk := hEm.1.2.2.2
    unfold selOk at hsOk
    rw [hsel] at hsOk
    exact hsOk
  have hany : (s.scene.objects.any fun n => n.nodeId == A) = true := by
    rcases List.mem_map.1 hAmem0 with ⟨n, hn, he⟩
    exact List.any_eq_true.2 ⟨n, hn, beq_iff_eq.2 he⟩
  have hstep : applyOp s (Op.select A) = selectObject s A := by
    simp [applyOp, pickSelect, hany]
  have hEm2 : EmInv orig (applyOp s (Op.select A)) :=
    eminv_applyOp orig s (Op.select A) hEm
  rw [hstep] at hEm2 ⊢
  have htsel : (selectObject s A).scene.selectedObject = some A := by
    simp [selectObject]
  have hEm2copy := hEm2
  obtain ⟨hI2, hE2, _⟩ := hEm2copy
  have hAmem : A ∈ sceneIds (selectObject s A) := by
    have hsOk := hI2.2.2.2
    unfold selOk at hsOk
    rw [htsel] at hsOk
    exact hsOk
  refine ⟨?_, ?_, ?_⟩
  · unfold savedHexOf
    apply find_map_eq
    · exact hAmem
    · intro n hn hna
      have h2 := (hE2 n hn).1 (by rw [htsel, hna])
      rw [h2.2, hna]
  · unfold emissiveOf
    apply find_map_eq
    · exact hAmem
    · intro n hn hna
      exact ((hE2 n hn).1 (by rw [htsel, hna])).1
  · have hEm3 : EmInv orig (deselectObject (selectObject s A)) :=
      eminv_deselect orig (selectObject s A) hEm2
    obtain ⟨hI3, hE3, _⟩ := hEm3
    have hids : sceneIds (deselectObject (selectObject s A))
        = sceneIds (selectObject s A) := by
      simp only [deselectObject, htsel]
      unfold sceneIds
      dsimp only
      rw [map_map_proj SceneNode.nodeId (restoreEmissive A)
        (nodeId_restoreEmissive A)]
    have hsel3 : (deselectObject (selectObject s A)).scene.selectedObject = none := by
      simp only [deselectObject, htsel]
    unfold emissiveOf
    apply find_map_eq
    · show A ∈ sceneIds (deselectObject (selectObject s A))
      rw [hids]
      exact hAmem
    · intro n hn hna
      have h2 := (hE3 n hn).2 (by rw [hsel3]; simp)
      rw [h2, hna]

/-! Concrete two-node scene used to witness the selection theorems. -/

def wNode1 : SceneNode :=
  { nodeId := 1, geometry := .box 1 1 1, color := "#ff0000",
    transparent := false, opacity := 1, roughness := 0.7, metalness := 0.3,
    emissive := 17, currentHex := 0,
    position := ⟨0, 0, 0⟩, rotation := ⟨0, 0, 0⟩, scale := ⟨1, 1, 1⟩,
    castShadow := true, receiveShadow := true,
    isPhysical := false, isPhantom := false, isTemporary := false }

def wNode2 : SceneNode := { wNode1 with nodeId := 2, emissive := 33 }

def wRec1 : ObjectData :=
  { id := 1, type := "box", position := ⟨0, 0, 0⟩, rotation := ⟨0, 0, 0⟩,
    scale := ⟨1, 1, 1⟩, color := "#ff0000", transparency := 0,
    isPhysical := false, isPhantom := false, isTemporary := false }

def wRec2 : ObjectData := { wRec1 with id := 2 }

def wStart : WorldState :=
  { scene := { objects := [wNode1, wNode2], selectedObject := none },
    objects := [wRec1, wRec2], nextObjectId := 3,
    editDisabled := true, deleteDisabled := true, events := [], log := [] }

def wOrig : Nat → Nat := fun i => if i = 1 then 17 else if i = 2 then 33 else 0

theorem wStart_eminv : EmInv wOrig wStart := by
  refine ⟨⟨rfl, by decide, by decide, trivial⟩, ?_, ?_⟩
  · intro n hn
    simp only [wStart, List.mem_cons, List.not_mem_nil, or_false] at hn
    constructor
    · intro hfalse
      exact absurd hfalse (by simp [wStart])
    · intro _
      rcases hn with rfl | rfl
      · decide
      · decide
  · intro i hi
    have hi3 : 3 ≤ i := hi
    have h1 : i ≠ 1 := by omega
    have h2 : i ≠ 2 := by omega
    simp [wOrig, h1, h2]

/-- C2 witness: select node 1 (emissive 17), then select node 2; node 1's
emissive is exactly 17 again and node 2 is the sole selection. -/
theorem select_new_restores_witness :
    (applyOp (runFrom wStart [Op.select 1]) (Op.select 2)).scene.selectedObject
        = some 2 ∧
    emissiveOf (applyOp (runFrom wStart [Op.select 1]) (Op.select 2)) 1
        = some 17 :=
  select_new_restores_previous_exactly wStart wOrig [Op.select 1] 1 2
    wStart_eminv (by decide) (by decide) (by decide)

/-- C10 witness: select node 1 twice; the saved slot still holds 17 (not
the 0x333333 highlight), and deselecting restores emissive 17. -/
theorem reselect_preserves_witness :
    savedHexOf (applyOp (runFrom wStart [Op.select 1]) (Op.select 1)) 1
        = some 17 ∧
    emissiveOf (applyOp (runFrom wStart [Op.select 1]) (Op.select 1)) 1
        = some 0x333333 ∧
    emissiveOf (deselectObject (applyOp (runFrom wStart [Op.select 1]) (Op.select 1))) 1
        = some 17 :=
  reselect_preserves_saved_original wStart wOrig [Op.select 1] 1
    wStart_eminv (by decide)

/-! ## C3 — `removeObject` on the selected node -/

/-- A one-node world in which node 1 is selected and highlighted: emissive
is the 0x333333 highlight, `currentHex` saved the original 0x112233, and
the selection event has been dispatched. -/
def c3Node : SceneNode :=
  { wNode1 with nodeId := 1, emissive := 0x333333, currentHex := 0x112233 }

def c3State : WorldState :=
  { scene := { objects := [c3Node], selectedObject := some 1 },
    objects := [wRec1], nextObjectId := 2,
    editDisabled := false, deleteDisabled := false,
    events := [DomEvent.objectSelected 1], log := [] }

/-- C3 counterexample: calling `removeObject` on the selected node does NOT
behave like an explicit deselect before unregistering — it dispatches no
`objectDeselected` event (the event list is unchanged), whereas an explicit
`deselectObject` at the same state dispatches the event and restores the
node's prior emissive 0x112233. -/
theorem removeObject_no_deselect_event :
    (removeObject c3State 1).events = [DomEvent.objectSelected 1] ∧
    (deselectObject c3State).events
        = [DomEvent.objectSelected 1, DomEvent.objectDeselected] ∧
    emissiveOf (deselectObject c3State) 1 = some 0x112233 ∧
    (removeObject c3State 1).scene.objects = [] := by
  refine ⟨rfl, rfl, rfl, rfl⟩

/-- C3 amended: when `removeObject` is called on the node that is currently
selected, the node is unregistered (spliced out of the pickable list) and
the selection reference is cleared and the edit/delete buttons disabled
afterwards; but no deselection event is dispatched and no emissive
restoration is performed — the node leaves the scene still carrying the
highlight, unlike an explicit deselect. -/
theorem removeObject_selected_clears_without_event
    (s : WorldState) (i : Nat) (hsel : s.scene.selectedObject = some i) :
    (removeObject s i).events = s.events ∧
    (removeObject s i).scene.selectedObject = none ∧
    (removeObject s i).editDisabled = true ∧
    (removeObject s i).deleteDisabled = true ∧
    (removeObject s i).scene.objects
        = s.scene.objects.eraseP (fun n => n.nodeId == i) := by
  simp only [removeObject, hsel, beq_self_eq_true, if_pos]
  refine ⟨?_, ?_, ?_, ?_, ?_⟩ <;> trivial

/-- C3 witness: the amended theorem at the concrete selected state. -/
theorem removeObject_selected_clears_witness :
    (removeObject c3State 1).events = c3State.events ∧
    (removeObject c3State 1).scene.selectedObject = none ∧
    (removeObject c3State 1).editDisabled = true ∧
    (removeObject c3State 1).deleteDisabled = true ∧
    (removeObject c3State 1).scene.objects
        = c3State.scene.objects.eraseP (fun n => n.nodeId == 1) :=
  removeObject_selected_clears_without_event c3State 1 rfl

/-! ## three/scene.js — AvatarManager (C8)

Geometry angle arguments that the source passes as multiples of `Math.PI`
are stored as exact rational coefficients of pi (`...Pi` fields), so the
geometry descriptors stay decidable. -/

/-- The avatar appearance attribute set (`AvatarManager` fields,
scene.js 326-333). -/
structure AvatarAttrs where
  avatarHeight : ℚ
  bodyShape : String
  skinColor : String
  hairStyle : String
  hairColor : String
  outfitStyle : String
  outfitPrimaryColor : String
  outfitSecondaryColor : String
deriving DecidableEq, Repr

/-- Geometry descriptors used by the avatar builder. `sphereSlice` is
`THREE.SphereGeometry(r, w, h, phiStart, phiLength, thetaStart,
thetaLength)` with the four angles as coefficients of pi. -/
inductive AvGeom where
  | sphere (radius : ℚ) (widthSegments heightSegments : Nat)
  | sphereSlice (radius : ℚ) (widthSegments heightSegments : Nat)
      (phiStartPi phiLengthPi thetaStartPi thetaLengthPi : ℚ)
  | cylinder (radiusTop radiusBottom height : ℚ) (radialSegments : Nat)
  | box (width height depth : ℚ)
deriving DecidableEq, Repr

/-- A material color: a CSS string (`new THREE.Color(str)`) or a numeric
hex literal. -/
inductive AvColor where
  | css (s : String)
  | hex (n : Nat)
deriving DecidableEq, Repr

/-- A mesh material: `MeshBasicMaterial` (`basic = true`) or
`MeshStandardMaterial`, with optional metalness/roughness overrides. -/
structure AvMaterial where
  basic : Bool
  color : AvColor
  metalness : Option ℚ
  roughness : Option ℚ
deriving DecidableEq, Repr

/-- One mesh part of the avatar: geometry, material, position, x-rotation
(as a coefficient of pi) and shadow flag. -/
structure AvatarPart where
  geom : AvGeom
  material : AvMaterial
  posX : ℚ
  posY : ℚ
  posZ : ℚ
  rotXPi : ℚ
  castShadow : Bool
deriving DecidableEq, Repr

/-- A plain `MeshStandardMaterial({ color })`. -/
def stdMat (c : AvColor) : AvMaterial :=
  { basic := false, color := c, metalness := none, roughness := none }

/-- `AvatarManager.createHead` (scene.js 365-426): head sphere, hair (the
geometry switch has a default falling back to the short-hair dome, but the
position/rotation if-chain covers only short/ponytail/long, so any other
style leaves the hair mesh at the origin with no rotation), two eyes and
the mouth, in insertion order. -/
def createHead (a : AvatarAttrs) : List AvatarPart :=
  let head : AvatarPart :=
    { geom := .sphere 0.25 32 32, material := stdMat (.css a.skinColor),
      posX := 0, posY := 1.6 * a.avatarHeight, posZ := 0, rotXPi := 0,
      castShadow := true }
  let hairGeometry : AvGeom :=
    if a.hairStyle = "short" then .sphereSlice 0.27 32 32 0 2 0 (1/2)
    else if a.hairStyle = "ponytail" then .cylinder 0.05 0.1 0.4 16
    else if a.hairStyle = "long" then .cylinder 0.25 0.15 0.6 16
    else .sphereSlice 0.27 32 32 0 2 0 (1/2)
  let hairPosY : ℚ :=
    if a.hairStyle = "short" then 1.6 * a.avatarHeight + 0.03
    else if a.hairStyle = "ponytail" then 1.6 * a.avatarHeight + 0.05
    else if a.hairStyle = "long" then 1.45 * a.avatarHeight
    else 0
  let hairPosZ : ℚ := if a.hairStyle = "ponytail" then -0.2 else 0
  let hairRotXPi : ℚ := if a.hairStyle = "short" then 1 else 0
  let hair : AvatarPart :=
    { geom := hairGeometry, material := stdMat (.css a.hairColor),
      posX := 0, posY := hairPosY, posZ := hairPosZ, rotXPi := hairRotXPi,
      castShadow := true }
  let eyeMat : AvMaterial :=
    { basic := true, color := .hex 0x444444, metalness := none, roughness := none }
  let leftEye : AvatarPart :=
    { geom := .sphere 0.05 16 16, material := eyeMat,
      posX := -0.1, posY := 1.63 * a.avatarHeight, posZ := 0.2, rotXPi := 0,
      castShadow := false }
  let rightEye : AvatarPart :=
    { geom := .sphere 0.05 16 16, material := eyeMat,
      posX := 0.1, posY := 1.63 * a.avatarHeight, posZ := 0.2, rotXPi := 0,
      castShadow := false }
  let mouth : AvatarPart :=
    { geom := .box 0.1 0.03 0.03,
      material := { basic := true, color := .hex 0xcc6666,
                    metalness := none, roughness := none },
      posX := 0, posY := 1.53 * a.avatarHeight, posZ := 0.22, rotXPi := 0,
      castShadow := false }
  [head, hair, leftEye, rightEye, mouth]

/-- `AvatarManager.createTorso` (scene.js 428-481): width/depth by body
shape (default = athletic), material by outfit style (default = casual). -/
def createTorso (a : AvatarAttrs) : List AvatarPart :=
  let wd : ℚ × ℚ :=
    if a.bodyShape = "athletic" then (0.5, 0.25)
    else if a.bodyShape = "slim" then (0.4, 0.2)
    else if a.bodyShape = "heavy" then (0.6, 0.35)
    else (0.5, 0.25)
  let torsoMaterial : AvMaterial :=
    if a.outfitStyle = "casual" then stdMat (.css a.outfitPrimaryColor)
    else if a.outfitStyle = "formal" then
      { basic := false, color := .css a.outfitPrimaryColor,
        metalness := some 0.3, roughness := some 0.7 }
    else if a.outfitStyle = "fantasy" then
      { basic := false, color := .css a.outfitPrimaryColor,
        metalness := some 0.5, roughness := some 0.5 }
    else stdMat (.css a.outfitPrimaryColor)
  [{ geom := .box wd.1 (0.6 * a.avatarHeight) wd.2, material := torsoMaterial,
     posX := 0, posY := 1.2 * a.avatarHeight, posZ := 0, rotXPi := 0,
     castShadow := true }]

/-- The documented default attribute values (scene.js 326-333). -/
def defaultAttrs : AvatarAttrs :=
  { avatarHeight := 1, bodyShape := "athletic", skinColor := "#f2d2bd",
    hairStyle := "short", hairColor := "#523b22", outfitStyle := "casual",
    outfitPrimaryColor := "#3f51b5", outfitSecondaryColor := "#f44336" }

/-- C8, evaluated at the failing input `hairStyle = "mohawk"`: the hair
falls back to the short-hair dome geometry, but is placed at the origin
with no rotation instead of at `y = 1.6·h + 0.03` with rotation pi as the
explicit "short" default is — so the built avatar is NOT identical in
placement to the default variant. Unknown bodyShape/outfitStyle, by
contrast, do produce a torso identical to the default. -/
theorem unknown_hairstyle_hair_misplaced :
    ((createHead { defaultAttrs with hairStyle := "mohawk" }).get? 1).map
        AvatarPart.geom
      = ((createHead defaultAttrs).get? 1).map AvatarPart.geom ∧
    ((createHead { defaultAttrs with hairStyle := "mohawk" }).get? 1).map
        AvatarPart.posY = some 0 ∧
    ((createHead { defaultAttrs with hairStyle := "mohawk" }).get? 1).map
        AvatarPart.rotXPi = some 0 ∧
    ((createHead defaultAttrs).get? 1).map AvatarPart.posY = some 1.63 ∧
    ((createHead defaultAttrs).get? 1).map AvatarPart.rotXPi = some 1 ∧
    createTorso { defaultAttrs with bodyShape := "bulky", outfitStyle := "cyber" }
      = createTorso defaultAttrs := by
  refine ⟨rfl, rfl, rfl, ?_, rfl, rfl⟩
  have h : ((createHead defaultAttrs).get? 1).map AvatarPart.posY
      = some ((1.6 : ℚ) * 1 + 0.03) := rfl
  rw [h, Option.some_inj]
  norm_num

/-! ## three/scene.js — TerrainManager and SimplexNoise (C4)

These functions apply `Math.sin` / `Math.cos`, so they are embedded over
`ℝ`. The `SimplexNoise` class has an empty constructor and `noise2D` reads
and writes no fields, which is what makes this stateless functional
embedding possible at all. -/

noncomputable section

/-- `SimplexNoise.noise2D` (scene.js 294-305). `Math.floor(x) & 255` is the
low byte of the 32-bit value, i.e. the nonnegative remainder mod 256
(`Int.emod`), for all coordinates in 32-bit range. The locals `xf`, `yf`
of the source are computed but never used and are omitted. -/
def noise2D (x y : ℝ) : ℝ :=
  let X : ℤ := ⌊x⌋ % 256
  let Y : ℤ := ⌊y⌋ % 256
  Real.sin ((X : ℝ) * 0.3 + (Y : ℝ) * 0.7) *
    Real.cos ((X : ℝ) * 0.7 + (Y : ℝ) * 0.3)

/-- `TerrainManager.generateHeightMap` (scene.js 227-256), viewed on the
vertex triples `(x, y, z)` (the position array has stride 3; index `i` is
x, `i+1` the height to be written, `i+2` is z): each vertex's height is
accumulated from three noise octaves and scaled by `maxHeight`. -/
def generateHeightMap (maxHeight : ℝ) (vertices : List (ℝ × ℝ × ℝ)) :
    List (ℝ × ℝ × ℝ) :=
  vertices.map fun v =>
    let x := v.1
    let z := v.2.2
    let height : ℝ := 0
    let height := height + noise2D (x * 0.01) (z * 0.01) * 0.6
    let height := height + noise2D (x * 0.04) (z * 0.04) * 0.3
    let height := height + noise2D (x * 0.1) (z * 0.1) * 0.1
    (x, height * maxHeight, z)

end

/-- C4: For every grid vertex coordinate pair (x, z), the generated terrain
height equals max height times the sum of three noise octaves —
noise(0.01x, 0.01z)·0.6 + noise(0.04x, 0.04z)·0.3 + noise(0.1x, 0.1z)·0.1 —
and the height function is pure: `noise2D` is a function of its arguments
alone (the class has no mutable state to embed), so evaluating it twice on
the same inputs yields the same value. -/
theorem terrain_height_three_octaves (maxHeight : ℝ)
    (vertices : List (ℝ × ℝ × ℝ)) :
    generateHeightMap maxHeight vertices
      = vertices.map (fun v =>
          (v.1,
           maxHeight * (noise2D (v.1 * 0.01) (v.2.2 * 0.01) * 0.6
             + noise2D (v.1 * 0.04) (v.2.2 * 0.04) * 0.3
             + noise2D (v.1 * 0.1) (v.2.2 * 0.1) * 0.1),
           v.2.2)) ∧
    ∀ x z : ℝ, noise2D x z = noise2D x z := by
  refine ⟨?_, fun x z => rfl⟩
  unfold generateHeightMap
  apply List.map_congr_left
  intro v _
  dsimp only
  simp only [Prod.mk.injEq]
  refine ⟨trivial, ?_, trivial⟩
  ring

end KViewer













